import Mathlib

/-!
Verification development for `pair.js` of the GlassiX-Mini WhatsApp bot.

The definitions below are a shallow embedding of the code in `src/pair.js`:
pure fragments become Lean functions, the stateful event handlers become
explicit state-passing step functions, and fallible actions are driven by
explicit outcome oracles.  Timestamps are `Nat` (milliseconds); JavaScript's
`now - t < limit` tests agree with truncated `Nat` subtraction because a
negative JavaScript difference and a truncated-to-zero `Nat` difference are
both `< limit`.
-/

namespace GlassiX

/-! ### JavaScript string primitives

The handful of string operations `pair.js` uses (`startsWith`, `endsWith`,
`trim`, `slice`, `split`, `toLowerCase`, `toUpperCase`) are modelled on the
underlying character lists, with the ASCII semantics JavaScript gives them,
so that every definition evaluates by kernel reduction. -/

/-- `s.startsWith(p)`. -/
def strStartsWith (s p : String) : Bool := p.data.isPrefixOf s.data

/-- `s.endsWith(p)`. -/
def strEndsWith (s p : String) : Bool := p.data.isSuffixOf s.data

/-- `s.trim()`: strip leading and trailing whitespace. -/
def strTrim (s : String) : String :=
  ⟨((s.data.dropWhile Char.isWhitespace).reverse.dropWhile Char.isWhitespace).reverse⟩

/-- `s.slice(n)`: drop the first `n` characters. -/
def strDrop (s : String) (n : Nat) : String := ⟨s.data.drop n⟩

/-- `s.length`. -/
def strLength (s : String) : Nat := s.data.length

/-- `s.toLowerCase()` (ASCII). -/
def strToLower (s : String) : String := ⟨s.data.map Char.toLower⟩

/-- `s.toUpperCase()` (ASCII). -/
def strToUpper (s : String) : String := ⟨s.data.map Char.toUpper⟩

/-- Split a character list at every character satisfying `p`; empty pieces are
kept, and the empty list yields one empty piece, exactly as JavaScript's
`String.prototype.split` with a one-character separator. -/
def splitListP (p : Char → Bool) : List Char → List (List Char)
  | [] => [[]]
  | c :: cs =>
    match splitListP p cs with
    | [] => [[c]]
    | g :: gs => if p c then [] :: g :: gs else (c :: g) :: gs

/-- `s.split(',')`. -/
def strSplitComma (s : String) : List String :=
  (splitListP (· == ',') s.data).map fun g => ⟨g⟩

/-! ### Duplicate-file cleanup (`cleanDuplicateFiles`, pair.js lines 90-125) -/

/-- `number.replace(/[^0-9]/g, '')` (pair.js line 94). -/
def sanitizeNumber (number : String) : String :=
  ⟨number.data.filter Char.isDigit⟩

/-- Split a leading maximal digit run from a character list (the behaviour of a
greedy `\d+` followed by a non-digit literal: no shorter run can succeed, so
the maximal run is the only candidate). -/
def takeDigits : List Char → List Char × List Char
  | [] => ([], [])
  | c :: cs =>
    if c.isDigit then
      let p := takeDigits cs
      (c :: p.1, p.2)
    else ([], c :: cs)

/-- Try to match the regex `creds_\d+_(\d+)\.json` at the head of `cs`,
returning the digits captured by the group.  Both `\d+` are greedy and each is
followed by a literal that is not a digit (`_` and `.`), so backtracking can
never help: the match is deterministic. -/
def matchCredsAt (cs : List Char) : Option (List Char) :=
  if "creds_".data.isPrefixOf cs then
    let rest0 := cs.drop "creds_".length
    let p1 := takeDigits rest0
    if p1.1 ≠ [] then
      match p1.2 with
      | '_' :: rest1 =>
        let p2 := takeDigits rest1
        if p2.1 ≠ [] ∧ ".json".data.isPrefixOf p2.2 then some p2.1 else none
      | _ => none
    else none
  else none

/-- Unanchored leftmost search for `creds_\d+_(\d+)\.json`, as JavaScript's
`String.prototype.match` performs: try each start position left to right. -/
def searchCreds : List Char → Option (List Char)
  | [] => none
  | c :: cs =>
    match matchCredsAt (c :: cs) with
    | some cap => some cap
    | none => searchCreds cs

/-- `parseInt` on a non-empty digit string. -/
def digitsToNat (ds : List Char) : Nat :=
  ds.foldl (fun acc c => acc * 10 + (c.toNat - '0'.toNat)) 0

/-- `parseInt(name.match(/creds_\d+_(\d+)\.json/)?.[1] || 0)`
(pair.js lines 104-105): the captured timestamp, or `0` when the regex does
not match. -/
def credsTimestamp (name : String) : Nat :=
  match searchCreds name.data with
  | some cap => digitsToNat cap
  | none => 0

/-- The comparator `(a, b) => timeB - timeA` as an ordering relation:
`a` may come before `b` iff `b`'s timestamp is at most `a`'s.  JavaScript's
`Array.prototype.sort` is stable, as is `List.insertionSort`. -/
def credsGe (a b : String) : Prop := credsTimestamp b ≤ credsTimestamp a

instance : DecidableRel credsGe := fun _ _ => Nat.decLe _ _

instance : IsTotal String credsGe :=
  ⟨fun a b => Nat.le_total (credsTimestamp b) (credsTimestamp a)⟩

instance : IsTrans String credsGe :=
  ⟨fun _ _ _ hab hbc => Nat.le_trans hbc hab⟩

/-- `sessionFiles` (pair.js lines 101-107): the directory entries whose name
starts with ``creds_<sanitized>_`` and ends with `.json`, sorted by embedded
timestamp, descending (stable). -/
def sessionFilesOf (number : String) (files : List String) : List String :=
  List.insertionSort credsGe
    (files.filter fun f =>
      strStartsWith f ("creds_" ++ sanitizeNumber number ++ "_") && strEndsWith f ".json")

/-- Pair.js lines 110-121: when more than one session file is present, every
file except the first (newest) of the sorted list is deleted. -/
def deletedFiles (number : String) (files : List String) : List String :=
  let sf := sessionFilesOf number files
  if sf.length > 1 then sf.drop 1 else []

/-! ### Status handlers (`setupStatusHandlers`, pair.js lines 195-256)

State of the handler closure: `lastStatusInteraction : Nat` (initially `0`).
Network outcomes (presence update, read, reaction send) are supplied by
oracles on the event; the random emoji choice does not affect any claim and
is left abstract.  A thrown error inside the `try` block aborts the rest of
the block and is swallowed by the outer `catch`. -/

/-- The fields of `userConfig` that the status handler reads.  `MAX_RETRIES`
is the result of `parseInt(userConfig.MAX_RETRIES)` with `0` standing for any
falsy result (`NaN` or `0`), so that `parseInt(...) || e` becomes
`if MAX_RETRIES ≠ 0 then MAX_RETRIES else e`. -/
structure StatusConfig where
  AUTO_VIEW_STATUS : String
  AUTO_LIKE_STATUS : String
  AUTO_RECORDING : String
  MAX_RETRIES : Nat
deriving DecidableEq

/-- `parseInt(userConfig.MAX_RETRIES) || 3` (pair.js lines 215 and 233). -/
def effRetries (v : Nat) : Nat := if v ≠ 0 then v else 3

/-- `1000 * (parseInt(userConfig.MAX_RETRIES) || 3 - retries)` (pair.js lines
224 and 248): `||` binds looser than `-`, so a truthy parse result makes the
delay the constant `1000 * MAX_RETRIES`, independent of `retries`. -/
def statusRetryDelay (v retries : Nat) : Nat :=
  1000 * (if v ≠ 0 then v else 3 - retries)

/-- One status event: the message-shape guards of pair.js line 201, the
arrival time, and outcome oracles for the three sends (`presenceOk` for the
single recording-presence attempt, `viewOk i` / `reactOk i` for the `i`-th
attempt, counted from 0, of the read / reaction loops). -/
structure StatusEvent where
  hasKey : Bool
  remoteJid : String
  hasParticipant : Bool
  now : Nat
  presenceOk : Bool
  viewOk : Nat → Bool
  reactOk : Nat → Bool

/-- Result of the `while (retries > 0)` retry loops (pair.js lines 216-226 and
234-250): how many attempts ran, which backoff delays were awaited, and
whether the loop exited by `break` (`success = true`) or threw
(`success = false`).  `retries = 0` at entry skips the loop without an
attempt and without an error. -/
structure RetryOut where
  attempts : Nat
  delays : List Nat
  success : Bool
deriving DecidableEq

/-- The retry loop itself: attempt `i`; on success `break`; on failure
decrement `retries`, throw if it reached 0, otherwise await
`statusRetryDelay` and loop. -/
def runStatusRetry (v : Nat) (ok : Nat → Bool) : Nat → Nat → RetryOut
  | _, 0 => ⟨0, [], true⟩
  | i, r + 1 =>
    if ok i then ⟨1, [], true⟩
    else if r = 0 then ⟨1, [], false⟩
    else
      let o := runStatusRetry v ok (i + 1) r
      ⟨o.attempts + 1, statusRetryDelay v r :: o.delays, o.success⟩

/-- Counts of the actions a single status event triggered. -/
structure StatusLog where
  recAttempts : Nat
  viewAttempts : Nat
  reactAttempts : Nat
  reactions : Nat
deriving DecidableEq

instance : Add StatusLog :=
  ⟨fun a b => ⟨a.recAttempts + b.recAttempts, a.viewAttempts + b.viewAttempts,
    a.reactAttempts + b.reactAttempts, a.reactions + b.reactions⟩⟩

/-- The reaction block (pair.js lines 229-251): run the reaction retry loop;
a successful send (`break` after at least one attempt) sets
`lastStatusInteraction = now` (line 241); a throw leaves it unchanged and is
swallowed by the outer `catch`. -/
def reactPhase (cfg : StatusConfig) (last : Nat) (ev : StatusEvent)
    (recA viewA : Nat) : Nat × StatusLog :=
  if cfg.AUTO_LIKE_STATUS == "true" then
    let ro := runStatusRetry cfg.MAX_RETRIES ev.reactOk 0 (effRetries cfg.MAX_RETRIES)
    if ro.success && decide (0 < ro.attempts) then
      (ev.now, ⟨recA, viewA, ro.attempts, 1⟩)
    else (last, ⟨recA, viewA, ro.attempts, 0⟩)
  else (last, ⟨recA, viewA, 0, 0⟩)

/-- One `messages.upsert` delivery to the status handler: the shape guard
(line 201), the 10-second throttle (lines 204-207, reading
`lastStatusInteraction`), then recording presence (lines 210-212, one
attempt, a failure throws to the outer `catch`), the read retry loop
(lines 214-227, exhaustion throws to the outer `catch`), and the reaction
block.  Returns the new `lastStatusInteraction` and the action counts. -/
def processStatusEvent (cfg : StatusConfig) (last : Nat) (ev : StatusEvent) :
    Nat × StatusLog :=
  if !(ev.hasKey && ev.remoteJid == "status@broadcast" && ev.hasParticipant) then
    (last, ⟨0, 0, 0, 0⟩)
  else if ev.now - last < 10000 then
    (last, ⟨0, 0, 0, 0⟩)
  else
    let recA : Nat := if cfg.AUTO_RECORDING == "true" then 1 else 0
    if cfg.AUTO_RECORDING == "true" && !ev.presenceOk then
      (last, ⟨1, 0, 0, 0⟩)
    else if cfg.AUTO_VIEW_STATUS == "true" then
      let vo := runStatusRetry cfg.MAX_RETRIES ev.viewOk 0 (effRetries cfg.MAX_RETRIES)
      if !vo.success then (last, ⟨recA, vo.attempts, 0, 0⟩)
      else reactPhase cfg last ev recA vo.attempts
    else reactPhase cfg last ev recA 0

/-- Deliver a list of status events in order, summing the action counts. -/
def processStatusEvents (cfg : StatusConfig) (last : Nat) :
    List StatusEvent → Nat × StatusLog
  | [] => (last, ⟨0, 0, 0, 0⟩)
  | e :: es =>
    let p := processStatusEvent cfg last e
    let q := processStatusEvents cfg p.1 es
    (q.1, p.2 + q.2)

/-! ### Command handlers (`setupCommandHandlers`, pair.js lines 259-312)

State of the handler closure: `commandCooldowns`, a map from sender jid to
the timestamp of the last accepted command, modelled as an association list
(JavaScript `Map.set` updates in place or appends).  The newsletter-reaction
block (lines 265-278) references an undefined `conn` inside a `try` whose
`catch` is empty, so it never affects the rest of the handler and carries no
state; it is therefore not modelled. -/

/-- The fields of one incoming chat message the handler reads.  The five
optional text carriers mirror `msg.message.conversation`,
`extendedTextMessage.text`, `buttonsResponseMessage.selectedButtonId`,
`imageMessage.caption` and `videoMessage.caption`; `none` is an absent field
(JavaScript `undefined`). -/
structure ChatMsg where
  hasMessage : Bool
  remoteJid : String
  conversation : Option String
  extendedText : Option String
  buttonId : Option String
  imageCaption : Option String
  videoCaption : Option String
  now : Nat

/-- JavaScript truthiness for an optional string: present and non-empty. -/
def truthy (o : Option String) : Bool := o.getD "" != ""

/-- Text extraction (pair.js lines 282-293): the first truthy carrier, in the
fixed order conversation, extended text, button reply, image caption, video
caption, is trimmed; with no truthy carrier the text stays `''`. -/
def extractText (m : ChatMsg) : String :=
  if truthy m.conversation then strTrim (m.conversation.getD "")
  else if truthy m.extendedText then strTrim (m.extendedText.getD "")
  else if truthy m.buttonId then strTrim (m.buttonId.getD "")
  else if truthy m.imageCaption then strTrim (m.imageCaption.getD "")
  else if truthy m.videoCaption then strTrim (m.videoCaption.getD "")
  else ""

/-- `text.slice(prefix.length).trim().split(/\s+/)` (pair.js line 307):
splitting the empty string yields `['']`, any other (already trimmed) string
yields its maximal non-whitespace runs. -/
def tokenizeWS (s : String) : List String :=
  if s == "" then [""]
  else ((splitListP Char.isWhitespace s.data).filter (· ≠ [])).map fun g => ⟨g⟩

/-- Look up a key in an association list, as JavaScript `Map.get`. -/
def assocGet (k : String) : List (String × Nat) → Option Nat
  | [] => none
  | (a, t) :: rest => if a == k then some t else assocGet k rest

/-- JavaScript `Map.set`: replace in place, or append a new entry. -/
def assocSet (k : String) (v : Nat) : List (String × Nat) → List (String × Nat)
  | [] => [(k, v)]
  | (a, t) :: rest => if a == k then (k, v) :: rest else (a, t) :: assocSet k v rest

/-- One `messages.upsert` delivery to the command handler: drop when
`msg.message` is absent or the jid is the status broadcast (line 279);
extract the text; drop unless it starts with `userConfig.PREFIX || '.'`
(lines 296-297); drop when the sender is still inside the 1-second cooldown
of its last accepted command (lines 300-304); otherwise record the cooldown
(line 305), tokenize, and dispatch the lower-cased command with its
arguments (lines 307-309).  Returns the new cooldown map and the dispatched
`(command, args)` pair, if any. -/
def commandStep (PREFIX : String) (cds : List (String × Nat)) (m : ChatMsg) :
    List (String × Nat) × Option (String × List String) :=
  if !m.hasMessage || m.remoteJid == "status@broadcast" then (cds, none)
  else
    let text := extractText m
    let pfx := if PREFIX == "" then "." else PREFIX
    if !strStartsWith text pfx then (cds, none)
    else
      let sender := m.remoteJid
      let withinCooldown : Bool :=
        match assocGet sender cds with
        | some t => decide (m.now - t < 1000)
        | none => false
      if withinCooldown then (cds, none)
      else
        let cds' := assocSet sender m.now cds
        let parts := tokenizeWS (strTrim (strDrop text (strLength pfx)))
        (cds', some (strToLower (parts.headD ""), parts.tail))

/-- Deliver a list of chat messages in order, collecting the dispatches. -/
def commandRun (PREFIX : String) (cds : List (String × Nat)) :
    List ChatMsg → List (Option (String × List String))
  | [] => []
  | m :: ms =>
    let p := commandStep PREFIX cds m
    p.2 :: commandRun PREFIX p.1 ms

/-! ### The `config` command (pair.js lines 337-368) -/

/-- A value stored in `userConfig`: a string, or (for `AUTO_LIKE_EMOJI`) an
array of strings. -/
inductive ConfigValue where
  | str (s : String)
  | arr (l : List String)
deriving DecidableEq

/-- `userConfig` as an ordered association object. -/
abbrev UserConfig := List (String × ConfigValue)

/-- JavaScript property assignment `userConfig[key] = v`: update in place, or
append a new key at the end. -/
def objSet (k : String) (v : ConfigValue) : UserConfig → UserConfig
  | [] => [(k, v)]
  | (a, w) :: rest => if a == k then (k, v) :: rest else (a, w) :: objSet k v rest

/-- Property read `userConfig[key]`. -/
def objGet (k : String) : UserConfig → Option ConfigValue
  | [] => none
  | (a, w) :: rest => if a == k then some w else objGet k rest

/-- `config set` (pair.js lines 338-347): upper-case the key, join the
remaining arguments with spaces, and store — split on commas when the key is
`AUTO_LIKE_EMOJI`, as a plain string otherwise. -/
def configSet (key value : String) (uc : UserConfig) : UserConfig :=
  let configKey := strToUpper key
  if configKey == "AUTO_LIKE_EMOJI" then
    objSet configKey (ConfigValue.arr (strSplitComma value)) uc
  else
    objSet configKey (ConfigValue.str value) uc

/-- How `config view` renders one value (pair.js line 357): arrays are joined
with `', '`. -/
def renderValue : ConfigValue → String
  | .str s => s
  | .arr l => String.intercalate ", " l

/-- The per-key lines of the `config view` reply (pair.js lines 355-358). -/
def viewLines (uc : UserConfig) : List String :=
  uc.map fun kv => "• " ++ kv.1 ++ ": " ++ renderValue kv.2

/-- The `config` sub-command dispatch (pair.js lines 337-368), returning the
updated config and the reply kind: `set` needs at least three arguments
(`set`, key, value...), `view` renders the current config, anything else
answers with usage help. -/
inductive ConfigReply where
  | updated (key value : String)
  | view (lines : List String)
  | usage
deriving DecidableEq

/-- `case 'config'` (pair.js lines 337-368). -/
def configCommand (args : List String) (uc : UserConfig) : UserConfig × ConfigReply :=
  if args.headD "" == "set" && decide (args.length ≥ 3) then
    let key := strToUpper (args.getD 1 "")
    let value := " ".intercalate (args.drop 2)
    (configSet (args.getD 1 "") value uc, ConfigReply.updated key value)
  else if args.headD "" == "view" then
    (uc, ConfigReply.view (viewLines uc))
  else
    (uc, ConfigReply.usage)

/-! ### The `menu` command and the undefined `config` variable
(pair.js lines 370-412) -/

/-- The identifiers bound at the top level of `pair.js` as far as the file
under `src/` extends (lines 1-59 and the function declarations). -/
def pairTopLevelNames : List String :=
  ["axios", "ytSearch", "express", "fs", "path", "exec", "router", "pino",
   "Octokit", "moment", "makeWASocket", "useMultiFileAuthState", "delay",
   "makeCacheableSignalKeyStore", "Browsers", "jidNormalizedUser",
   "defaultConfig", "octokit", "owner", "repo", "activeSockets",
   "socketCreationTime", "SESSION_BASE_PATH", "NUMBER_LIST_PATH",
   "adminCache", "adminCacheTime", "ADMIN_CACHE_TTL", "loadAdmins",
   "formatMessage", "getSriLankaTimestamp", "cleanDuplicateFiles",
   "sendAdminConnectMessage", "lastAboutUpdate", "ABOUT_UPDATE_INTERVAL",
   "updateAboutStatus", "lastStoryUpdate", "STORY_UPDATE_INTERVAL",
   "updateStoryStatus", "setupStatusHandlers", "setupCommandHandlers"]

/-- Modelled from the spec: the remainder of `pair.js` after the `fb` case is
not present under `src/`; per the spec (§2, §4.1: SessionManager and
ConfigStore helpers such as the `updateUserConfig` called at line 349) it
declares further helpers but no variable named `config` — only
`defaultConfig` and `userConfig` exist. -/
def pairTailNames : List String := ["updateUserConfig"]

/-- The local bindings in scope inside the `case 'menu'` block: the enclosing
function parameters, the handler locals, and the block's own `const`s
(pair.js lines 259-309 and 371-405). -/
def menuLocalNames : List String :=
  ["socket", "number", "userConfig", "messages", "msg", "newsletterJids",
   "emojis", "text", "sender", "now", "parts", "command", "args",
   "startTime", "uptime", "hours", "minutes", "seconds", "os", "ramUsage",
   "totalRam", "menuCaption"]

/-- Everything resolvable from inside the `menu` handler. -/
def menuScope : List String := pairTopLevelNames ++ pairTailNames ++ menuLocalNames

/-- Resolving an identifier: a name not in scope throws `ReferenceError`. -/
def lookupVar (scope : List String) (x : String) : Except String Unit :=
  if x ∈ scope then Except.ok () else Except.error x

/-- `case 'menu'` (pair.js lines 370-412) as its sequence of free-variable
reads: the template literal for `menuCaption` reads `number`, the uptime
parts, the RAM numbers and then `config.PREFIX` (line 389, before any of the
command list lines); only after the caption is built does
`socket.sendMessage(sender, {image: {url: config.IMAGE_PATH ...}, caption})`
run (lines 407-410).  The result is the list of messages actually sent. -/
def menuHandler (scope : List String) : Except String (List String) := do
  lookupVar scope "socketCreationTime"
  lookupVar scope "number"
  lookupVar scope "os"
  lookupVar scope "hours"
  lookupVar scope "minutes"
  lookupVar scope "seconds"
  lookupVar scope "ramUsage"
  lookupVar scope "totalRam"
  lookupVar scope "config"
  lookupVar scope "socket"
  lookupVar scope "sender"
  lookupVar scope "config"
  Except.ok ["menu image and caption"]

/-- The messages the requester receives from the `menu` handler: a thrown
`ReferenceError` reaches the surrounding `try` before any send. -/
def menuSentMessages (scope : List String) : List String :=
  match menuHandler scope with
  | Except.ok l => l
  | Except.error _ => []

/-! ### Active-session map (spec §3, §4.1)

Modelled from the spec: the SessionManager operations live in the portion of
`pair.js` that is not present under `src/` (the file breaks off inside the
`fb` case); only the map declarations (lines 45-46) are visible.  Per spec
§4.1, `startSession` refuses (`AlreadyActive`) when a live session exists for
the number, `stopSession` is idempotent and removes the entry, and a
permanent disconnect removes the entry. -/

/-- The `activeSockets` map: phone number to an opaque socket handle. -/
abbrev ActiveMap := List (String × Nat)

/-- Modelled from the spec: the three operations of spec §4.1 that touch the
active-session map. -/
inductive SessionOp where
  | start (number : String) (sock : Nat)
  | stop (number : String)
  | disconnect (number : String)

/-- Modelled from the spec: applying one SessionManager operation to the
active map.  `start` registers only when no live session exists for the
number (otherwise `AlreadyActive`, map unchanged); `stop` and a permanent
`disconnect` remove the number's entry and are no-ops when it is absent. -/
def applySessionOp (m : ActiveMap) : SessionOp → ActiveMap
  | .start n s => if (assocGet n m).isSome then m else m ++ [(n, s)]
  | .stop n => m.eraseP fun kv => kv.1 == n
  | .disconnect n => m.eraseP fun kv => kv.1 == n

/-- At most one active session entry per phone number. -/
def ActiveInv (m : ActiveMap) : Prop := (m.map Prod.fst).Nodup

/-! ## Theorems -/

/-- The `length > 1` guard of pair.js line 110 is immaterial: the deleted
files are always the sorted list minus its head. -/
theorem deletedFiles_eq_drop (number : String) (files : List String) :
    deletedFiles number files = (sessionFilesOf number files).drop 1 := by
  unfold deletedFiles
  cases h : sessionFilesOf number files with
  | nil => simp
  | cons a t => cases t <;> simp

/-- Claim C2 fails as stated: the cleanup's filter admits any file named
``creds_555_*.json``, and an unparsable timestamp counts as `0`; with two such
files both hold the (tied) maximal embedded timestamp, yet the second is
deleted — so cleanup does not retain every file whose embedded timestamp is
maximal, and deletes a file whose timestamp is not below the maximum. -/
theorem cleanDuplicateFiles_claim_false :
    "creds_555_xyz.json" ∈
      deletedFiles "555" ["creds_555_abc.json", "creds_555_xyz.json"] ∧
    ∀ f ∈ sessionFilesOf "555" ["creds_555_abc.json", "creds_555_xyz.json"],
      credsTimestamp f ≤ credsTimestamp "creds_555_xyz.json" := by
  decide

/-- Claim C2 (amended): among the remote files whose name starts with
``creds_<number>_`` and ends with `.json`, provided the embedded timestamps
(0 for names not matching ``creds_<digits>_<digits>.json``) are pairwise
distinct, cleanup deletes exactly those whose embedded timestamp is not the
maximum, and retains the single file with the highest embedded timestamp. -/
theorem cleanDuplicateFiles_keep_newest (number : String) (files : List String)
    (hnd : ((sessionFilesOf number files).map credsTimestamp).Nodup) :
    (∀ f ∈ sessionFilesOf number files,
        (f ∈ deletedFiles number files ↔
          ∃ g ∈ sessionFilesOf number files, credsTimestamp f < credsTimestamp g)) ∧
    (sessionFilesOf number files ≠ [] →
        ∃ f ∈ sessionFilesOf number files, f ∉ deletedFiles number files ∧
          ∀ g ∈ sessionFilesOf number files, credsTimestamp g ≤ credsTimestamp f) := by
  have hs : List.Sorted credsGe (sessionFilesOf number files) :=
    List.sorted_insertionSort credsGe _
  rw [deletedFiles_eq_drop]
  cases hsc : sessionFilesOf number files with
  | nil =>
    refine ⟨fun f hf => absurd hf (by simp), fun hne => absurd rfl hne⟩
  | cons h t =>
    rw [hsc] at hs hnd
    have hmax : ∀ g ∈ t, credsTimestamp g ≤ credsTimestamp h :=
      fun g hg => List.rel_of_sorted_cons hs g hg
    have hnotin : credsTimestamp h ∉ t.map credsTimestamp := by
      simpa using (List.nodup_cons.mp hnd).1
    constructor
    · intro f hf
      constructor
      · intro hdel
        simp only [List.drop_one, List.tail_cons] at hdel
        refine ⟨h, List.mem_cons_self h t, lt_of_le_of_ne (hmax f hdel) ?_⟩
        intro heq
        exact hnotin (heq ▸ List.mem_map_of_mem credsTimestamp hdel)
      · rintro ⟨g, hg, hlt⟩
        simp only [List.drop_one, List.tail_cons]
        rcases List.mem_cons.mp hf with rfl | hft
        · rcases List.mem_cons.mp hg with rfl | hgt
          · exact absurd hlt (lt_irrefl _)
          · exact absurd hlt (not_lt_of_le (hmax g hgt))
        · exact hft
    · intro _
      refine ⟨h, List.mem_cons_self h t, ?_, ?_⟩
      · simp only [List.drop_one, List.tail_cons]
        intro hht
        exact hnotin (List.mem_map_of_mem credsTimestamp hht)
      · intro g hg
        rcases List.mem_cons.mp hg with rfl | hgt
        · exact le_refl _
        · exact hmax g hgt

/-- Concrete instance of the amended claim C2: of `creds_555_100.json`,
`creds_555_50.json`, `creds_555_200.json`, only `creds_555_200.json` (highest
timestamp) is retained and the other two are deleted. -/
theorem cleanDuplicateFiles_keep_newest_witness :
    ((sessionFilesOf "555"
        ["creds_555_100.json", "creds_555_50.json", "creds_555_200.json"]).map
      credsTimestamp).Nodup ∧
    ((∀ f ∈ sessionFilesOf "555"
          ["creds_555_100.json", "creds_555_50.json", "creds_555_200.json"],
        (f ∈ deletedFiles "555"
            ["creds_555_100.json", "creds_555_50.json", "creds_555_200.json"] ↔
          ∃ g ∈ sessionFilesOf "555"
              ["creds_555_100.json", "creds_555_50.json", "creds_555_200.json"],
            credsTimestamp f < credsTimestamp g)) ∧
      (sessionFilesOf "555"
          ["creds_555_100.json", "creds_555_50.json", "creds_555_200.json"] ≠ [] →
        ∃ f ∈ sessionFilesOf "555"
            ["creds_555_100.json", "creds_555_50.json", "creds_555_200.json"],
          f ∉ deletedFiles "555"
              ["creds_555_100.json", "creds_555_50.json", "creds_555_200.json"] ∧
          ∀ g ∈ sessionFilesOf "555"
              ["creds_555_100.json", "creds_555_50.json", "creds_555_200.json"],
            credsTimestamp g ≤ credsTimestamp f)) :=
  ⟨by decide, cleanDuplicateFiles_keep_newest "555"
    ["creds_555_100.json", "creds_555_50.json", "creds_555_200.json"] (by decide)⟩

/-! ### Retry-loop lemmas -/

theorem effRetries_pos (v : Nat) : 1 ≤ effRetries v := by
  unfold effRetries; split <;> omega

/-- A retry loop whose first attempt succeeds exits at once. -/
theorem runStatusRetry_first_ok (v : Nat) (ok : Nat → Bool) {i m : Nat}
    (hm : 1 ≤ m) (h : ok i = true) :
    runStatusRetry v ok i m = ⟨1, [], true⟩ := by
  cases m with
  | zero => omega
  | succ r => unfold runStatusRetry; rw [h]; simp

/-- The loop never runs more attempts than its initial `retries`. -/
theorem runStatusRetry_attempts_le (v : Nat) (ok : Nat → Bool) :
    ∀ m i, (runStatusRetry v ok i m).attempts ≤ m := by
  intro m
  induction m with
  | zero => intro i; simp [runStatusRetry]
  | succ r ih =>
    intro i
    unfold runStatusRetry
    cases h : ok i with
    | true => simp
    | false =>
      simp only [Bool.false_eq_true, if_false]
      split
      · simp
      · simpa using Nat.succ_le_succ (ih (i + 1))

/-- Attempts `i, i+1, ..., i+(m-2)` failing and attempt `i+(m-1)` succeeding
makes the loop exit successfully after exactly `m` attempts. -/
theorem runStatusRetry_last_ok (v : Nat) (ok : Nat → Bool) :
    ∀ m i, 1 ≤ m → (∀ j, j < m - 1 → ok (i + j) = false) →
      ok (i + (m - 1)) = true →
      (runStatusRetry v ok i m).attempts = m ∧
      (runStatusRetry v ok i m).success = true := by
  intro m
  induction m with
  | zero => intro i h; omega
  | succ r ih =>
    intro i _ hfail hlast
    cases r with
    | zero =>
      have h0 : ok i = true := by simpa using hlast
      rw [runStatusRetry_first_ok v ok (by omega) h0]
      exact ⟨rfl, rfl⟩
    | succ k =>
      have h0 : ok i = false := by simpa using hfail 0 (by omega)
      unfold runStatusRetry
      rw [h0]
      simp only [Bool.false_eq_true, if_false, Nat.succ_ne_zero, if_neg]
      have hrec := ih (i + 1) (by omega)
        (fun j hj => by
          have := hfail (j + 1) (by omega)
          simpa [Nat.add_assoc, Nat.add_comm 1 j] using this)
        (by
          have : i + 1 + (k + 1 - 1) = i + (k + 1 + 1 - 1) := by omega
          rw [this]; exact hlast)
      exact ⟨by simp [hrec.1], by simp [hrec.2]⟩

/-- When every attempt fails, the loop throws after exactly `m` attempts. -/
theorem runStatusRetry_all_fail (v : Nat) (ok : Nat → Bool)
    (hfail : ∀ j, ok j = false) :
    ∀ m i, 1 ≤ m →
      (runStatusRetry v ok i m).attempts = m ∧
      (runStatusRetry v ok i m).success = false := by
  intro m
  induction m with
  | zero => intro i h; omega
  | succ r ih =>
    intro i _
    unfold runStatusRetry
    rw [hfail i]
    cases r with
    | zero => simp
    | succ k =>
      simp only [Bool.false_eq_true, if_false, Nat.succ_ne_zero, if_neg]
      have hrec := ih (i + 1) (by omega)
      exact ⟨by simp [hrec.1], by simp [hrec.2]⟩

/-- Claim C5: in a status-action retry loop entered with `retries = m ≥ 1`,
failing the first `m - 1` attempts and succeeding on the last reports success
after exactly `m` attempts, and failing all `m` attempts raises the error to
the caller of the loop (`success = false`, the throw of pair.js lines 223 and
247). -/
theorem statusRetryLoop_spec (v m : Nat) (ok : Nat → Bool) (hm : 1 ≤ m) :
    ((∀ j, j < m - 1 → ok j = false) → ok (m - 1) = true →
      (runStatusRetry v ok 0 m).attempts = m ∧
      (runStatusRetry v ok 0 m).success = true) ∧
    ((∀ j, ok j = false) →
      (runStatusRetry v ok 0 m).attempts = m ∧
      (runStatusRetry v ok 0 m).success = false) := by
  constructor
  · intro hfail hlast
    exact runStatusRetry_last_ok v ok m 0 hm
      (fun j hj => by simpa using hfail j hj) (by simpa using hlast)
  · intro hfail
    exact runStatusRetry_all_fail v ok hfail m 0 hm

/-- Concrete instance of claim C5 at `maxRetries = 3`: two failures then a
success consume exactly 3 attempts and succeed; three failures consume 3
attempts and throw. -/
theorem statusRetryLoop_spec_witness :
    (runStatusRetry 3 (fun i => i == 2) 0 3).attempts = 3 ∧
    (runStatusRetry 3 (fun i => i == 2) 0 3).success = true ∧
    (runStatusRetry 3 (fun _ => false) 0 3).attempts = 3 ∧
    (runStatusRetry 3 (fun _ => false) 0 3).success = false := by
  have h1 := (statusRetryLoop_spec 3 3 (fun i => i == 2) (by decide)).1
    (by decide) (by decide)
  have h2 := (statusRetryLoop_spec 3 3 (fun _ => false) (by decide)).2
    (fun _ => rfl)
  exact ⟨h1.1, h1.2, h2.1, h2.2⟩

/-- Claim C4 fails as stated: with `MAX_RETRIES = 3`, after the first failure
two attempts remain, but the awaited delay is `1000 * (3 || 3 - 2) = 3000` ms
rather than `1000 * 2` (the `||` in `1000 * (parseInt(...) || 3 - retries)`
swallows the subtraction); moreover a failing recording-presence send is
attempted exactly once — it is not retried — and its thrown error aborts the
view and react actions, so the three actions are not independent. -/
theorem statusActions_claim_false :
    statusRetryDelay 3 2 ≠ 1000 * 2 ∧
    (processStatusEvent ⟨"true", "true", "true", 3⟩ 0
        ⟨true, "status@broadcast", true, 100000, false,
          fun _ => true, fun _ => true⟩).2 = ⟨1, 0, 0, 0⟩ := by
  constructor
  · decide
  · rfl

/-- Claim C4 (amended): for every processed status event, mark-viewed and
react are each retried up to `maxRetries` (`parseInt(MAX_RETRIES) || 3`)
attempts while recording presence is attempted at most once; the delay
between consecutive attempts is the constant `1000 * parseInt(MAX_RETRIES)`
ms when `MAX_RETRIES` parses to a nonzero number (operator precedence:
`parseInt(...) || 3 - retries` is `parseInt(...) || (3 - retries)`), and
`1000 * (3 - retries)` ms otherwise. -/
theorem statusActions_amended (cfg : StatusConfig) (last : Nat) (ev : StatusEvent) :
    (∀ r, cfg.MAX_RETRIES ≠ 0 →
      statusRetryDelay cfg.MAX_RETRIES r = 1000 * cfg.MAX_RETRIES) ∧
    (∀ r, cfg.MAX_RETRIES = 0 →
      statusRetryDelay cfg.MAX_RETRIES r = 1000 * (3 - r)) ∧
    (processStatusEvent cfg last ev).2.recAttempts ≤ 1 ∧
    (processStatusEvent cfg last ev).2.viewAttempts ≤ effRetries cfg.MAX_RETRIES ∧
    (processStatusEvent cfg last ev).2.reactAttempts ≤ effRetries cfg.MAX_RETRIES := by
  refine ⟨fun r h => by simp [statusRetryDelay, h],
          fun r h => by simp [statusRetryDelay, h], ?_⟩
  have hv := runStatusRetry_attempts_le cfg.MAX_RETRIES ev.viewOk
    (effRetries cfg.MAX_RETRIES) 0
  have hr := runStatusRetry_attempts_le cfg.MAX_RETRIES ev.reactOk
    (effRetries cfg.MAX_RETRIES) 0
  unfold processStatusEvent reactPhase
  dsimp only
  split_ifs <;> simp_all

/-- Concrete instance of the amended claim C4, at `MAX_RETRIES = 3`: the
backoff delay is 3000 ms whatever the remaining-attempt count (and
`1000 * (3 - retries)` when the parse is falsy), recording presence is
attempted at most once, and the view/react loops stay within 3 attempts. -/
theorem statusActions_amended_witness :
    statusRetryDelay 3 1 = 1000 * 3 ∧
    statusRetryDelay 0 1 = 1000 * (3 - 1) ∧
    (processStatusEvent ⟨"true", "true", "true", 3⟩ 0
        ⟨true, "status@broadcast", true, 100000, true,
          fun _ => true, fun _ => true⟩).2.recAttempts ≤ 1 ∧
    (processStatusEvent ⟨"true", "true", "true", 3⟩ 0
        ⟨true, "status@broadcast", true, 100000, true,
          fun _ => true, fun _ => true⟩).2.viewAttempts ≤ effRetries 3 ∧
    (processStatusEvent ⟨"true", "true", "true", 3⟩ 0
        ⟨true, "status@broadcast", true, 100000, true,
          fun _ => true, fun _ => true⟩).2.reactAttempts ≤ effRetries 3 := by
  have h := statusActions_amended ⟨"true", "true", "true", 3⟩ 0
    ⟨true, "status@broadcast", true, 100000, true, fun _ => true, fun _ => true⟩
  have h0 := statusActions_amended ⟨"true", "true", "true", 0⟩ 0
    ⟨true, "status@broadcast", true, 100000, true, fun _ => true, fun _ => true⟩
  exact ⟨h.1 1 (by decide), h0.2.1 1 rfl, h.2.2.1, h.2.2.2.1, h.2.2.2.2⟩

/-! ### Status cooldown (claim C3) -/

theorem statusLog_add_reactions (a b : StatusLog) :
    (a + b).reactions = a.reactions + b.reactions := rfl

/-- An event arriving within 10 s of `lastStatusInteraction` triggers
nothing, whatever its shape. -/
theorem processStatusEvent_cooled (cfg : StatusConfig) (last : Nat)
    (ev : StatusEvent) (h : ev.now - last < 10000) :
    processStatusEvent cfg last ev = (last, ⟨0, 0, 0, 0⟩) := by
  unfold processStatusEvent
  by_cases hg :
      (!(ev.hasKey && ev.remoteJid == "status@broadcast" && ev.hasParticipant)) = true
  · rw [if_pos hg]
  · rw [if_neg hg, if_pos h]

/-- A whole batch of events within 10 s of `lastStatusInteraction` triggers
nothing and leaves the timestamp unchanged. -/
theorem processStatusEvents_cooled (cfg : StatusConfig) (t : Nat)
    (es : List StatusEvent) (h : ∀ e ∈ es, e.now - t < 10000) :
    processStatusEvents cfg t es = (t, ⟨0, 0, 0, 0⟩) := by
  induction es with
  | nil => rfl
  | cons e es ih =>
    unfold processStatusEvents
    rw [processStatusEvent_cooled cfg t e (h e (List.mem_cons_self e es))]
    dsimp only
    rw [ih fun f hf => h f (List.mem_cons_of_mem e hf)]
    rfl

/-- A valid status event processed outside the cooldown, whose sends all
succeed at the first attempt and whose reaction is enabled, reacts once and
stamps `lastStatusInteraction` with its arrival time. -/
theorem processStatusEvent_react_once (cfg : StatusConfig) (last : Nat)
    (ev : StatusEvent)
    (hkey : ev.hasKey = true) (hjid : ev.remoteJid = "status@broadcast")
    (hpart : ev.hasParticipant = true)
    (hfresh : ¬ ev.now - last < 10000)
    (hrec : cfg.AUTO_RECORDING = "true" → ev.presenceOk = true)
    (hview : cfg.AUTO_VIEW_STATUS = "true" → ev.viewOk 0 = true)
    (hreact : ev.reactOk 0 = true)
    (hlike : cfg.AUTO_LIKE_STATUS = "true") :
    (processStatusEvent cfg last ev).1 = ev.now ∧
    (processStatusEvent cfg last ev).2.reactions = 1 := by
  have hro : runStatusRetry cfg.MAX_RETRIES ev.reactOk 0 (effRetries cfg.MAX_RETRIES)
      = ⟨1, [], true⟩ :=
    runStatusRetry_first_ok _ _ (effRetries_pos _) hreact
  unfold processStatusEvent reactPhase
  cases hV : (cfg.AUTO_VIEW_STATUS == "true") with
  | true =>
    have hvo : runStatusRetry cfg.MAX_RETRIES ev.viewOk 0 (effRetries cfg.MAX_RETRIES)
        = ⟨1, [], true⟩ :=
      runStatusRetry_first_ok _ _ (effRetries_pos _) (hview (beq_iff_eq.mp hV))
    cases hR : (cfg.AUTO_RECORDING == "true") with
    | true =>
      simp [hkey, hjid, hpart, hfresh, hlike, hro, hvo, hR, hV,
        hrec (beq_iff_eq.mp hR)]
    | false => simp [hkey, hjid, hpart, hfresh, hlike, hro, hvo, hR, hV]
  | false =>
    cases hR : (cfg.AUTO_RECORDING == "true") with
    | true =>
      simp [hkey, hjid, hpart, hfresh, hlike, hro, hR, hV,
        hrec (beq_iff_eq.mp hR)]
    | false => simp [hkey, hjid, hpart, hfresh, hlike, hro, hR, hV]

/-- Claim C3 fails as stated: `lastStatusInteraction` is only refreshed when
a reaction succeeds (pair.js line 241), so with `AUTO_LIKE_STATUS` off and
`AUTO_RECORDING` on, two status events 5 ms apart each trigger a
recording-presence action — two status actions within one 10-second
window. -/
theorem statusCooldown_claim_false :
    ((processStatusEvents ⟨"false", "false", "true", 3⟩ 0
        [⟨true, "status@broadcast", true, 100000, true,
          fun _ => true, fun _ => true⟩,
         ⟨true, "status@broadcast", true, 100005, true,
          fun _ => true, fun _ => true⟩]).2).recAttempts = 2 := rfl

/-- Claim C3 (amended): the 10-second cooldown timestamp is refreshed only by
a successful status reaction; hence when `AUTO_LIKE_STATUS` is `'true'` and a
valid status event is processed with its sends succeeding, every further
status event arriving within 10 seconds triggers nothing — in particular any
number of later events inside the window leaves exactly one reaction
fired. -/
theorem statusCooldown_amended (cfg : StatusConfig) (last : Nat)
    (e : StatusEvent) (rest : List StatusEvent)
    (hkey : e.hasKey = true) (hjid : e.remoteJid = "status@broadcast")
    (hpart : e.hasParticipant = true)
    (hfresh : ¬ e.now - last < 10000)
    (hrec : cfg.AUTO_RECORDING = "true" → e.presenceOk = true)
    (hview : cfg.AUTO_VIEW_STATUS = "true" → e.viewOk 0 = true)
    (hreact : e.reactOk 0 = true)
    (hlike : cfg.AUTO_LIKE_STATUS = "true")
    (hwin : ∀ f ∈ rest, f.now - e.now < 10000) :
    (processStatusEvents cfg last (e :: rest)).2.reactions = 1 := by
  obtain ⟨h1, h2⟩ := processStatusEvent_react_once cfg last e hkey hjid hpart
    hfresh hrec hview hreact hlike
  have hcool : processStatusEvents cfg (processStatusEvent cfg last e).1 rest
      = ((processStatusEvent cfg last e).1, ⟨0, 0, 0, 0⟩) := by
    apply processStatusEvents_cooled
    intro f hf
    rw [h1]
    exact hwin f hf
  unfold processStatusEvents
  dsimp only
  rw [hcool]
  simp [statusLog_add_reactions, h2]

/-- Concrete instance of the amended claim C3: 5 status events within 10
seconds, reactions enabled and succeeding, fire exactly one reaction. -/
theorem statusCooldown_amended_witness :
    (processStatusEvents ⟨"true", "true", "true", 3⟩ 0
        [⟨true, "status@broadcast", true, 100000, true,
          fun _ => true, fun _ => true⟩,
         ⟨true, "status@broadcast", true, 100002, true,
          fun _ => true, fun _ => true⟩,
         ⟨true, "status@broadcast", true, 100004, true,
          fun _ => true, fun _ => true⟩,
         ⟨true, "status@broadcast", true, 100006, true,
          fun _ => true, fun _ => true⟩,
         ⟨true, "status@broadcast", true, 100009, true,
          fun _ => true, fun _ => true⟩]).2.reactions = 1 :=
  statusCooldown_amended ⟨"true", "true", "true", 3⟩ 0
    ⟨true, "status@broadcast", true, 100000, true, fun _ => true, fun _ => true⟩
    [⟨true, "status@broadcast", true, 100002, true, fun _ => true, fun _ => true⟩,
     ⟨true, "status@broadcast", true, 100004, true, fun _ => true, fun _ => true⟩,
     ⟨true, "status@broadcast", true, 100006, true, fun _ => true, fun _ => true⟩,
     ⟨true, "status@broadcast", true, 100009, true, fun _ => true, fun _ => true⟩]
    rfl rfl rfl (by decide) (fun _ => rfl) (fun _ => rfl) rfl rfl
    (by decide)

/-! ### Command cooldown and dispatch (claims C6, C7, C8) -/

theorem assocGet_assocSet (k : String) (v : Nat) (l : List (String × Nat)) :
    assocGet k (assocSet k v l) = some v := by
  induction l with
  | nil => simp [assocSet, assocGet]
  | cons p t ih =>
    obtain ⟨a, w⟩ := p
    by_cases h : (a == k) = true
    · simp [assocSet, assocGet, h]
    · simp [assocSet, assocGet, h, ih]

/-- A message from a sender whose last accepted command is less than 1 s old
is dropped: no dispatch, cooldown map unchanged. -/
theorem commandStep_cooled (PX : String) (cds : List (String × Nat))
    (m : ChatMsg) (t : Nat)
    (hprev : assocGet m.remoteJid cds = some t) (hlt : m.now - t < 1000) :
    commandStep PX cds m = (cds, none) := by
  unfold commandStep
  split
  · rfl
  · dsimp only
    simp [hprev, hlt]

/-- A prefixed message from a sender with no recorded cooldown is dispatched
and stamps the cooldown map with its arrival time. -/
theorem commandStep_dispatches (PX : String) (cds : List (String × Nat))
    (m : ChatMsg)
    (hmsg : m.hasMessage = true) (hjid : m.remoteJid ≠ "status@broadcast")
    (hget : assocGet m.remoteJid cds = none)
    (hpre : strStartsWith (extractText m) (if PX == "" then "." else PX) = true) :
    commandStep PX cds m =
      (assocSet m.remoteJid m.now cds,
        some (strToLower ((tokenizeWS (strTrim (strDrop (extractText m)
            (strLength (if PX == "" then "." else PX))))).headD ""),
          (tokenizeWS (strTrim (strDrop (extractText m)
            (strLength (if PX == "" then "." else PX))))).tail)) := by
  have hpre' : strStartsWith (extractText m) (if PX = "" then "." else PX) = true := by
    simpa using hpre
  simp [commandStep, hmsg, hjid, hget, hpre']

/-- Claim C6: a command message arriving less than 1 second after the
sender's previously accepted command is dropped without dispatch; and of
three prefixed command messages from one sender within 1 second, only the
first is dispatched. -/
theorem commandCooldown_spec (PX : String) :
    (∀ (cds : List (String × Nat)) (m : ChatMsg) (t : Nat),
      assocGet m.remoteJid cds = some t → m.now - t < 1000 →
        commandStep PX cds m = (cds, none)) ∧
    (∀ (m1 m2 m3 : ChatMsg) (cds : List (String × Nat)),
      m1.hasMessage = true → m1.remoteJid ≠ "status@broadcast" →
      m2.remoteJid = m1.remoteJid → m3.remoteJid = m1.remoteJid →
      assocGet m1.remoteJid cds = none →
      strStartsWith (extractText m1) (if PX == "" then "." else PX) = true →
      m2.now - m1.now < 1000 → m3.now - m1.now < 1000 →
        ∃ d1, commandRun PX cds [m1, m2, m3] = [some d1, none, none]) := by
  constructor
  · exact commandStep_cooled PX
  · intro m1 m2 m3 cds hmsg hjid h2j h3j hget hpre h2t h3t
    have hstep1 := commandStep_dispatches PX cds m1 hmsg hjid hget hpre
    have hstep2 : commandStep PX (assocSet m1.remoteJid m1.now cds) m2 =
        (assocSet m1.remoteJid m1.now cds, none) :=
      commandStep_cooled PX _ m2 m1.now (by rw [h2j]; exact assocGet_assocSet _ _ _) h2t
    have hstep3 : commandStep PX (assocSet m1.remoteJid m1.now cds) m3 =
        (assocSet m1.remoteJid m1.now cds, none) :=
      commandStep_cooled PX _ m3 m1.now (by rw [h3j]; exact assocGet_assocSet _ _ _) h3t
    refine ⟨(strToLower ((tokenizeWS (strTrim (strDrop (extractText m1)
        (strLength (if PX == "" then "." else PX))))).headD ""),
        (tokenizeWS (strTrim (strDrop (extractText m1)
          (strLength (if PX == "" then "." else PX))))).tail), ?_⟩
    unfold commandRun
    rw [hstep1]
    dsimp only
    unfold commandRun
    rw [hstep2]
    dsimp only
    unfold commandRun
    rw [hstep3]
    rfl

/-- Concrete instance of claim C6: three `.ping` messages from one sender at
5000 ms, 5100 ms and 5999 ms — only the first is dispatched. -/
theorem commandCooldown_spec_witness :
    ∃ d1, commandRun "." []
      [⟨true, "111@s.whatsapp.net", some ".ping now", none, none, none, none, 5000⟩,
       ⟨true, "111@s.whatsapp.net", some ".ping now", none, none, none, none, 5100⟩,
       ⟨true, "111@s.whatsapp.net", some ".ping now", none, none, none, none, 5999⟩]
      = [some d1, none, none] :=
  (commandCooldown_spec ".").2
    ⟨true, "111@s.whatsapp.net", some ".ping now", none, none, none, none, 5000⟩
    ⟨true, "111@s.whatsapp.net", some ".ping now", none, none, none, none, 5100⟩
    ⟨true, "111@s.whatsapp.net", some ".ping now", none, none, none, none, 5999⟩
    [] rfl (by decide) rfl rfl rfl (by decide) (by decide) (by decide)

/-- Claim C7: command text is extracted by the fixed precedence plain text >
extended text > button reply > image caption > video caption; the first
present (truthy, i.e. non-empty) sub-type determines the extracted text. -/
theorem extractText_precedence :
    (∀ (m : ChatMsg) (c : String), m.conversation = some c → c ≠ "" →
      extractText m = strTrim c) ∧
    (∀ (m : ChatMsg) (e : String), truthy m.conversation = false →
      m.extendedText = some e → e ≠ "" → extractText m = strTrim e) ∧
    (∀ (m : ChatMsg) (b : String), truthy m.conversation = false →
      truthy m.extendedText = false →
      m.buttonId = some b → b ≠ "" → extractText m = strTrim b) ∧
    (∀ (m : ChatMsg) (i : String), truthy m.conversation = false →
      truthy m.extendedText = false → truthy m.buttonId = false →
      m.imageCaption = some i → i ≠ "" → extractText m = strTrim i) ∧
    (∀ (m : ChatMsg) (v : String), truthy m.conversation = false →
      truthy m.extendedText = false → truthy m.buttonId = false →
      truthy m.imageCaption = false →
      m.videoCaption = some v → v ≠ "" → extractText m = strTrim v) := by
  refine ⟨?_, ?_, ?_, ?_, ?_⟩
  · intro m c hm hc
    simp [extractText, truthy, hm, hc]
  · intro m e h1 hm hc
    simp only [truthy, bne_eq_false_iff_eq] at h1
    simp [extractText, truthy, hm, hc, h1]
  · intro m b h1 h2 hm hc
    simp only [truthy, bne_eq_false_iff_eq] at h1 h2
    simp [extractText, truthy, hm, hc, h1, h2]
  · intro m i h1 h2 h3 hm hc
    simp only [truthy, bne_eq_false_iff_eq] at h1 h2 h3
    simp [extractText, truthy, hm, hc, h1, h2, h3]
  · intro m v h1 h2 h3 h4 hm hc
    simp only [truthy, bne_eq_false_iff_eq] at h1 h2 h3 h4
    simp [extractText, truthy, hm, hc, h1, h2, h3, h4]

/-- Concrete instances of claim C7: a plain text wins over a caption that is
also present, and with plain text absent the extended text wins. -/
theorem extractText_precedence_witness :
    extractText ⟨true, "x", some " .alive ", some ".menu", none, some ".cap", none, 0⟩
      = ".alive" ∧
    extractText ⟨true, "x", none, some ".menu", some ".btn", none, none, 0⟩
      = ".menu" :=
  ⟨extractText_precedence.1
      ⟨true, "x", some " .alive ", some ".menu", none, some ".cap", none, 0⟩
      " .alive " rfl (by decide),
   extractText_precedence.2.1
      ⟨true, "x", none, some ".menu", some ".btn", none, none, 0⟩
      ".menu" rfl rfl (by decide)⟩

/-- Claim C8: a chat message whose extracted text does not start with the
configured prefix (`userConfig.PREFIX || '.'`) is dropped; otherwise (when
the sender clears the 1-second cooldown of pair.js lines 300-304) the text
after the prefix is trimmed and tokenized on whitespace, and the lower-cased
first token with the remaining tokens is dispatched to the command switch. -/
theorem commandTokenize_spec (PX : String) (cds : List (String × Nat)) (m : ChatMsg) :
    (strStartsWith (extractText m) (if PX == "" then "." else PX) = false →
      (commandStep PX cds m).2 = none) ∧
    (m.hasMessage = true → m.remoteJid ≠ "status@broadcast" →
      assocGet m.remoteJid cds = none →
      strStartsWith (extractText m) (if PX == "" then "." else PX) = true →
      (commandStep PX cds m).2 =
        some (strToLower ((tokenizeWS (strTrim (strDrop (extractText m)
            (strLength (if PX == "" then "." else PX))))).headD ""),
          (tokenizeWS (strTrim (strDrop (extractText m)
            (strLength (if PX == "" then "." else PX))))).tail)) := by
  constructor
  · intro hpre
    have hpre' : strStartsWith (extractText m) (if PX = "" then "." else PX) = false := by
      simpa using hpre
    unfold commandStep
    split
    · rfl
    · dsimp only
      simp [hpre']
  · intro hmsg hjid hget hpre
    rw [commandStep_dispatches PX cds m hmsg hjid hget hpre]

/-- Concrete instance of claim C8: `.Ping   now  x` dispatches
`("ping", ["now", "x"])`, and `hello` (no prefix) is dropped. -/
theorem commandTokenize_spec_witness :
    (commandStep "." []
      ⟨true, "111@s.whatsapp.net", some "hello", none, none, none, none, 0⟩).2
        = none ∧
    (commandStep "." []
      ⟨true, "111@s.whatsapp.net", some ".Ping   now  x", none, none, none, none, 0⟩).2
        = some ("ping", ["now", "x"]) := by
  constructor
  · exact (commandTokenize_spec "." []
      ⟨true, "111@s.whatsapp.net", some "hello", none, none, none, none, 0⟩).1
      (by decide)
  · rw [(commandTokenize_spec "." []
      ⟨true, "111@s.whatsapp.net", some ".Ping   now  x", none, none, none, none, 0⟩).2
      rfl (by decide) rfl (by decide)]
    decide

/-! ### Config round-trip (claim C9) -/

theorem objGet_objSet (k : String) (v : ConfigValue) (l : UserConfig) :
    objGet k (objSet k v l) = some v := by
  induction l with
  | nil => simp [objSet, objGet]
  | cons p t ih =>
    obtain ⟨a, w⟩ := p
    by_cases h : (a == k) = true
    · simp [objSet, objGet, h]
    · simp [objSet, objGet, h, ih]

theorem objSet_mem (k : String) (v : ConfigValue) (l : UserConfig) :
    (k, v) ∈ objSet k v l := by
  induction l with
  | nil => simp [objSet]
  | cons p t ih =>
    obtain ⟨a, w⟩ := p
    by_cases h : (a == k) = true
    · simp [objSet, h]
    · simp only [objSet, h, if_false]
      exact List.mem_cons_of_mem _ ih

/-- Claim C9: `config set KEY VALUE` followed by `config view` shows the
upper-cased key mapped to that value; for `AUTO_LIKE_EMOJI` the stored value
is the ordered list of the comma-split tokens of the input (rendered joined
with `', '`), and `config view` replies with exactly the per-key lines of the
updated config. -/
theorem configRoundTrip (key value : String) (uc : UserConfig) :
    (strToUpper key ≠ "AUTO_LIKE_EMOJI" →
      objGet (strToUpper key) (configCommand ["set", key, value] uc).1 =
        some (ConfigValue.str value) ∧
      ("• " ++ strToUpper key ++ ": " ++ value) ∈
        viewLines (configCommand ["set", key, value] uc).1) ∧
    (strToUpper key = "AUTO_LIKE_EMOJI" →
      objGet "AUTO_LIKE_EMOJI" (configCommand ["set", key, value] uc).1 =
        some (ConfigValue.arr (strSplitComma value)) ∧
      ("• " ++ "AUTO_LIKE_EMOJI" ++ ": " ++
          String.intercalate ", " (strSplitComma value)) ∈
        viewLines (configCommand ["set", key, value] uc).1) ∧
    (configCommand ["view"] (configCommand ["set", key, value] uc).1).2 =
      ConfigReply.view (viewLines (configCommand ["set", key, value] uc).1) := by
  have hset : (configCommand ["set", key, value] uc).1 = configSet key value uc := rfl
  refine ⟨?_, ?_, rfl⟩
  · intro h
    rw [hset]
    have hcfg : configSet key value uc = objSet (strToUpper key) (ConfigValue.str value) uc := by
      simp [configSet, h]
    rw [hcfg]
    refine ⟨objGet_objSet _ _ _, ?_⟩
    have := List.mem_map_of_mem
      (fun kv : String × ConfigValue => "• " ++ kv.1 ++ ": " ++ renderValue kv.2)
      (objSet_mem (strToUpper key) (ConfigValue.str value) uc)
    simpa [viewLines, renderValue] using this
  · intro h
    rw [hset]
    have hcfg : configSet key value uc =
        objSet "AUTO_LIKE_EMOJI" (ConfigValue.arr (strSplitComma value)) uc := by
      simp [configSet, h]
    rw [hcfg]
    refine ⟨objGet_objSet _ _ _, ?_⟩
    have := List.mem_map_of_mem
      (fun kv : String × ConfigValue => "• " ++ kv.1 ++ ": " ++ renderValue kv.2)
      (objSet_mem "AUTO_LIKE_EMOJI" (ConfigValue.arr (strSplitComma value)) uc)
    simpa [viewLines, renderValue] using this

/-- Concrete instance of claim C9: `config set foo bar` shows `FOO: bar`,
and `config set auto_like_emoji 💥,👍` stores the ordered list
`['💥', '👍']`. -/
theorem configRoundTrip_witness :
    (objGet "FOO" (configCommand ["set", "foo", "bar"] []).1 =
        some (ConfigValue.str "bar") ∧
      ("• " ++ "FOO" ++ ": " ++ "bar") ∈
        viewLines (configCommand ["set", "foo", "bar"] []).1) ∧
    objGet "AUTO_LIKE_EMOJI"
        (configCommand ["set", "auto_like_emoji", "💥,👍"] []).1 =
      some (ConfigValue.arr ["💥", "👍"]) := by
  constructor
  · exact (configRoundTrip "foo" "bar" []).1 (by decide)
  · have h := ((configRoundTrip "auto_like_emoji" "💥,👍" []).2.1 (by decide)).1
    rw [h]
    decide

/-- Claim C10: the `menu` handler reads the undefined variable `config`
(pair.js line 389) while building the caption, before any send, and only
`defaultConfig`/`userConfig` style names are in scope — so it throws a
`ReferenceError` on `config` and the menu image-and-caption message is never
sent to the requester. -/
theorem menuCommand_referenceError :
    menuHandler menuScope = Except.error "config" ∧
    menuSentMessages menuScope = [] := by
  constructor <;> rfl

/-! ### Active-session invariant (claim C1) -/

theorem assocGet_none_not_mem (n : String) (m : List (String × Nat))
    (h : assocGet n m = none) : n ∉ m.map Prod.fst := by
  induction m with
  | nil => simp
  | cons p t ih =>
    obtain ⟨a, w⟩ := p
    by_cases ha : (a == n) = true
    · simp [assocGet, ha] at h
    · simp only [assocGet, ha, if_false] at h
      simp only [List.map_cons, List.mem_cons]
      rintro (rfl | hn)
      · simp at ha
      · exact ih h hn

/-- One SessionManager operation preserves the at-most-one-session-per-number
invariant. -/
theorem applySessionOp_preserves (m : ActiveMap) (op : SessionOp)
    (h : ActiveInv m) : ActiveInv (applySessionOp m op) := by
  cases op with
  | start n s =>
    simp only [applySessionOp]
    cases hg : (assocGet n m).isSome with
    | true => simpa using h
    | false =>
      have hget : assocGet n m = none := by
        cases hgo : assocGet n m with
        | none => rfl
        | some t => rw [hgo] at hg; simp at hg
      have hnot := assocGet_none_not_mem n m hget
      rw [if_neg (show ¬(false = true) by simp)]
      unfold ActiveInv at h ⊢
      rw [List.map_append, List.nodup_append]
      refine ⟨h, by simp, ?_⟩
      intro x hx hx2
      simp only [List.map_cons, List.map_nil, List.mem_singleton] at hx2
      exact hnot (hx2 ▸ hx)
  | stop n =>
    exact List.Nodup.sublist (List.Sublist.map Prod.fst (List.eraseP_sublist m)) h
  | disconnect n =>
    exact List.Nodup.sublist (List.Sublist.map Prod.fst (List.eraseP_sublist m)) h

/-- Claim C1: every sequence of SessionManager operations (session start,
session stop, disconnect removal) applied to an active-session map satisfying
the at-most-one-entry-per-number invariant preserves that invariant. -/
theorem sessionInvariant_preserved (m : ActiveMap) (ops : List SessionOp)
    (h : ActiveInv m) : ActiveInv (ops.foldl applySessionOp m) := by
  induction ops generalizing m with
  | nil => exact h
  | cons op ops ih => exact ih _ (applySessionOp_preserves m op h)

/-- Concrete instance of claim C1: starting `"111"` twice, stopping it, and
handling a disconnect for `"222"` keeps at most one entry per number. -/
theorem sessionInvariant_preserved_witness :
    ActiveInv (List.foldl applySessionOp []
      [SessionOp.start "111" 5, SessionOp.start "111" 6,
       SessionOp.start "222" 7, SessionOp.stop "111",
       SessionOp.disconnect "222"]) :=
  sessionInvariant_preserved []
    [SessionOp.start "111" 5, SessionOp.start "111" 6,
     SessionOp.start "222" 7, SessionOp.stop "111",
     SessionOp.disconnect "222"] (by simp [ActiveInv])

end GlassiX
